import Mathlib

/-!
Verification of the quote-portal pipeline store and reminder engine.

The definitions below are a shallow embedding of the backend of the
quote-portal repository: the persistence layer for quotes (db.js,
functions getAllQuotes, insertQuote, updateQuotePositions,
getDueReminders, markReminderSent), the reminder scheduler
(reminderService.js: createTransport, sendReminderEmail,
startReminderScheduler) and the relevant Express handlers (server.js:
POST /api/quotes and PATCH /api/quotes/positions).

Modelling conventions:
- timestamps (timestamptz columns, JS Date values) are integers
  (milliseconds since the epoch); comparisons on them mirror SQL/JS
  comparisons;
- the numeric value column is modelled as an integer, since no verified
  property depends on decimal arithmetic;
- the SQL text type is String, and SQL text comparison is codepoint
  lexicographic comparison on the character list;
- the database table of quotes is a list of rows, in insertion order;
- asynchronous I/O failure of the SMTP transport and of individual SQL
  statements is modelled by explicit oracles (Quote to Bool, or
  PositionUpdate to state to Bool) passed as parameters.
-/

/-- One row of the quotes table, with the column set of db.js
(initDb / toQuoteDomain). Optional columns are Option. -/
structure Quote where
  id : String
  title : String
  clientName : String
  customerId : Option String := none
  createdBy : Option String := none
  value : Option Int := none
  stage : String
  position : Int := 0
  soNumber : Option String := none
  lastChasedAt : Option Int := none
  nextChaseAt : Option Int := none
  reminderEmail : Option String := none
  attachmentUrl : Option String := none
  status : Option String := none
  notes : Option String := none
  createdAt : Int := 0
  updatedAt : Int := 0
deriving DecidableEq, Repr

/-- The quotes table: a list of rows in insertion order. -/
abbrev QuoteDB := List Quote

/-! ## getDueReminders (db.js)

SQL: select * from quotes where reminder_email is not null and
next_chase_at is not null and next_chase_at <= $1. -/

/-- Row predicate of the getDueReminders where-clause. -/
def isDueReminder (now : Int) (q : Quote) : Bool :=
  q.reminderEmail.isSome &&
    match q.nextChaseAt with
    | some t => decide (t ≤ now)
    | none => false

/-- Embedding of getDueReminders: the rows whose reminder is due at `now`. -/
def getDueReminders (now : Int) (db : QuoteDB) : QuoteDB :=
  db.filter (isDueReminder now)

/-! ## markReminderSent (db.js)

SQL: update quotes set last_chased_at = $2, next_chase_at = null,
updated_at = $3 where id = $1. The JS function receives `at` from the
caller and computes updated_at itself; both are parameters here. -/

/-- Field update performed by the markReminderSent SQL set-clause on a
matching row. -/
def applyMarkSent (sentAt updatedAt : Int) (q : Quote) : Quote :=
  { q with lastChasedAt := some sentAt, nextChaseAt := none, updatedAt := updatedAt }

/-- Per-row effect of the markReminderSent update statement: rows whose id
matches are updated, all other rows are untouched. -/
def markQuoteSent (id : String) (sentAt updatedAt : Int) (q : Quote) : Quote :=
  if q.id = id then applyMarkSent sentAt updatedAt q else q

/-- Embedding of markReminderSent applied to the whole table. -/
def markReminderSent (id : String) (sentAt updatedAt : Int) (db : QuoteDB) : QuoteDB :=
  db.map (markQuoteSent id sentAt updatedAt)

/-! ## insertQuote (db.js)

The function first reads coalesce(max(position), 0) over the target
stage, then inserts the row with position `(maxPos || 0) + 1`. -/

/-- Aggregate select coalesce-free part: max(position) over the rows of
the given stage, none when the stage has no rows. -/
def stageMaxPosition (stage : String) (db : QuoteDB) : Option Int :=
  ((db.filter (fun q => q.stage = stage)).map (fun q => q.position)).max?

/-- Embedding of insertQuote: computes the new position as in the source
(`(maxPos[0]?.max_pos || 0) + 1`, where the query returns
coalesce(max(position), 0)); the JS `|| 0` maps the number 0 to 0.
The row is appended to the table. -/
def insertQuote (q : Quote) (db : QuoteDB) : QuoteDB :=
  let maxPos : Int := (stageMaxPosition q.stage db).getD 0
  let newPosition : Int := (if maxPos = 0 then 0 else maxPos) + 1
  db ++ [{ q with position := newPosition }]

/-! ## updateQuotePositions (db.js)

A BEGIN transaction, one update statement per move, COMMIT; on any
error, ROLLBACK and rethrow. A single statement: update quotes set
position = $1, stage = $2, updated_at = now() where id = $3. -/

/-- One element of the updates array of updateQuotePositions. -/
structure PositionUpdate where
  id : String
  position : Int
  stage : String
deriving DecidableEq, Repr

/-- Effect of one update statement of updateQuotePositions on the table
(updated_at is set to the server clock `now`). -/
def applyPositionUpdate (now : Int) (u : PositionUpdate) (db : QuoteDB) : QuoteDB :=
  db.map (fun q =>
    if q.id = u.id then { q with position := u.position, stage := u.stage, updatedAt := now } else q)

/-- Transaction body of updateQuotePositions: runs the update statements
in order against the transaction-local state; `writeFails` is the oracle
deciding whether a statement raises (constraint violation, connection
loss). Returns none as soon as a statement fails. -/
def runPositionUpdates (writeFails : PositionUpdate → QuoteDB → Bool) (now : Int) :
    List PositionUpdate → QuoteDB → Option QuoteDB
  | [], db => some db
  | u :: rest, db =>
    if writeFails u db then none
    else runPositionUpdates writeFails now rest (applyPositionUpdate now u db)

/-- Embedding of updateQuotePositions with its BEGIN/COMMIT/ROLLBACK
wrapper: the result is the table state visible after the call together
with the flag that an error was rethrown to the caller; on failure the
visible state is the snapshot taken at BEGIN. -/
def updateQuotePositions (writeFails : PositionUpdate → QuoteDB → Bool) (now : Int)
    (updates : List PositionUpdate) (db : QuoteDB) : QuoteDB × Bool :=
  match runPositionUpdates writeFails now updates db with
  | some db2 => (db2, false)
  | none => (db, true)

/-- Transaction-local state after the first `i` statements all succeed:
used to phrase which statement fails. -/
def stateAfter (now : Int) (updates : List PositionUpdate) (db : QuoteDB) : QuoteDB :=
  updates.foldl (fun s u => applyPositionUpdate now u s) db

/-! ## getAllQuotes (db.js)

SQL: order by q.stage, q.position asc, q.next_chase_at nulls last,
q.created_at desc. The first key is the stage text column itself, under
text (codepoint lexicographic) comparison; nulls last on an ascending
key places none after every some. -/

/-- Codepoint lexicographic strict comparison of character lists: the
model of SQL text comparison on the stage column. -/
def charListLt : List Char → List Char → Bool
  | [], [] => false
  | [], _ :: _ => true
  | _ :: _, [] => false
  | a :: as, b :: bs =>
    if a.toNat < b.toNat then true
    else if b.toNat < a.toNat then false
    else charListLt as bs

/-- Strict text comparison on String. -/
def strLt (a b : String) : Bool := charListLt a.data b.data

/-- Strict comparison of the next_chase_at key, ascending with nulls
last: a null is greater than every timestamp. -/
def chaseBefore : Option Int → Option Int → Bool
  | some a, some b => decide (a < b)
  | some _, none => true
  | none, _ => false

/-- Third and fourth order-by keys of getAllQuotes: next_chase_at
ascending nulls last, then created_at descending. -/
def quoteLeChase (a b : Quote) : Bool :=
  if chaseBefore a.nextChaseAt b.nextChaseAt then true
  else if chaseBefore b.nextChaseAt a.nextChaseAt then false
  else decide (b.createdAt ≤ a.createdAt)

/-- Second order-by key of getAllQuotes: position ascending, ties
resolved by the later keys. -/
def quoteLePos (a b : Quote) : Bool :=
  if decide (a.position < b.position) then true
  else if decide (b.position < a.position) then false
  else quoteLeChase a b

/-- Composite order-by comparator of getAllQuotes, as a weak order
(`a` may be listed no later than `b`): stage text ascending, then
position ascending, then next_chase_at ascending nulls last, then
created_at descending. -/
def quoteLe (a b : Quote) : Bool :=
  if strLt a.stage b.stage then true
  else if strLt b.stage a.stage then false
  else quoteLePos a b

/-- Insert a row into a list sorted by `le`, before the first element it
compares no greater than. -/
def insertSorted (le : Quote → Quote → Bool) (x : Quote) : QuoteDB → QuoteDB
  | [] => [x]
  | y :: ys => if le x y then x :: y :: ys else y :: insertSorted le x ys

/-- Insertion sort by `le`: an executable model of the database sort
performed by the order-by clause. -/
def sortQuotes (le : Quote → Quote → Bool) : QuoteDB → QuoteDB
  | [] => []
  | x :: xs => insertSorted le x (sortQuotes le xs)

/-- Embedding of getAllQuotes: the table sorted by the order-by
comparator of the source query. -/
def getAllQuotes (db : QuoteDB) : QuoteDB := sortQuotes quoteLe db

/-- The JS expression `v || d` on an optional string: a missing value
and the empty string (the only falsy string) both fall back to `d`. -/
def jsOrStr (v : Option String) (d : String) : String :=
  match v with
  | some s => if s = "" then d else s
  | none => d

/-- The JS truthiness test `!v` on an optional string: null, undefined
and the empty string are falsy. -/
def jsFalsyStr : Option String → Bool
  | none => true
  | some s => s = ""

/-! ## Reminder engine (reminderService.js)

createTransport returns null exactly when SMTP_HOST is unset;
sendReminderEmail builds the subject and body, logs when the transport
is null and otherwise calls sendMail; startReminderScheduler runs a tick
every minute: getDueReminders, then per due quote sendReminderEmail
followed by markReminderSent, each quote guarded by its own try/catch. -/

/-- Environment of one scheduler tick: the SMTP configuration, the
transport outcome oracle (whether sendMail would resolve for a given
quote), the locale date formatter used in the body, the SMTP_FROM
setting, and the wall-clock values taken by the two `new Date()` calls
around markReminderSent. -/
structure ReminderEnv where
  smtpHost : Option String
  smtpFrom : Option String
  transportOk : Quote → Bool
  localeFormat : Int → String
  sentAtOf : Quote → Int
  updatedAtOf : Quote → Int

/-- Embedding of createTransport restricted to what the engine observes:
a transport exists exactly when SMTP_HOST is set. -/
def transportConfigured (env : ReminderEnv) : Bool := env.smtpHost.isSome

/-- Subject line built by sendReminderEmail. -/
def reminderSubject (q : Quote) : String :=
  "Quote follow-up: " ++ q.title ++ " for " ++ q.clientName

/-- Rendering of the value field in the body: the number, or N/A when
null. -/
def valueText : Option Int → String
  | some v => toString v
  | none => "N/A"

/-- Rendering of the last-chased field in the body: the locale-formatted
timestamp, or Never when null. -/
def lastChasedText (fmt : Int → String) : Option Int → String
  | some t => fmt t
  | none => "Never"

/-- Body text built by sendReminderEmail. -/
def reminderBody (fmt : Int → String) (q : Quote) : String :=
  "This is a reminder to chase the quote \"" ++ q.title ++ "\" for client \""
    ++ q.clientName ++ "\".\n\nCurrent stage: " ++ q.stage
    ++ "\nValue: " ++ valueText q.value
    ++ "\n\nLast chased: " ++ lastChasedText fmt q.lastChasedAt

/-- Observable effect of one sendReminderEmail call. -/
inductive SendAction where
  | skipped
  | logOnly (line : String)
  | mailed (fromAddr toAddr subject body : String)
deriving DecidableEq, Repr

/-- Embedding of sendReminderEmail: the guard `!quote.reminderEmail` is
the JS falsy test, so a null and an empty-string reminderEmail both
return early with no dispatch; otherwise a console log of the message
when the transport is null, and a sendMail with
from = SMTP_FROM || reminderEmail otherwise. -/
def sendReminderEmail (env : ReminderEnv) (q : Quote) : SendAction :=
  match q.reminderEmail with
  | none => .skipped
  | some addr =>
    if addr = "" then .skipped
    else if transportConfigured env then
      .mailed (jsOrStr env.smtpFrom addr) addr (reminderSubject q) (reminderBody env.localeFormat q)
    else
      .logOnly ("[reminderService] Reminder for " ++ addr ++ ": "
        ++ reminderSubject q ++ "\n" ++ reminderBody env.localeFormat q)

/-- Whether the awaited sendReminderEmail promise resolves: the falsy
early return and the log-only path always resolve; a real sendMail,
reached only for a non-empty address with a transport, resolves exactly
when the transport delivers. -/
def sendSucceeds (env : ReminderEnv) (q : Quote) : Bool :=
  match q.reminderEmail with
  | none => true
  | some addr =>
    if addr = "" then true
    else if transportConfigured env then env.transportOk q else true

/-- Body of the per-quote try block of a tick: a send attempt is made
for the quote (its id is appended to the attempt log); markReminderSent
runs only when the send resolved, otherwise the catch block leaves the
table untouched. -/
def tickStep (env : ReminderEnv) (st : QuoteDB × List String) (q : Quote) : QuoteDB × List String :=
  ((if sendSucceeds env q then
      markReminderSent q.id (env.sentAtOf q) (env.updatedAtOf q) st.1
    else st.1),
   st.2 ++ [q.id])

/-- Embedding of one tick of startReminderScheduler: read the due set,
then process each due quote in order. Returns the table after the tick
and the list of quote ids for which a send attempt occurred. -/
def reminderTick (env : ReminderEnv) (now : Int) (db : QuoteDB) : QuoteDB × List String :=
  (getDueReminders now db).foldl (tickStep env) (db, [])

/-! ## API layer (server.js) -/

/-- Response produced by a handler: HTTP status, message of the JSON
payload, and the quotes list included in the payload when any. -/
structure ApiResponse where
  status : Nat
  message : String
  quotes : List Quote := []
deriving DecidableEq, Repr

/-- Shape of the updates field of a PATCH /api/quotes/positions body:
absent, present but not an array, or an array. -/
inductive UpdatesField where
  | absent
  | nonArray
  | array (updates : List PositionUpdate)

/-- The guard of the handler: !Array.isArray(updates) ||
updates.length === 0. -/
def updatesInvalid : UpdatesField → Bool
  | .array us => us.isEmpty
  | _ => true

/-- Embedding of the PATCH /api/quotes/positions handler: reject an
absent, non-array or empty updates field with 400 before touching the
store; otherwise run updateQuotePositions and answer 200 with the
re-fetched quote list, or 500 when the store call threw. -/
def patchQuotePositions (writeFails : PositionUpdate → QuoteDB → Bool) (now : Int)
    (body : UpdatesField) (db : QuoteDB) : ApiResponse × QuoteDB :=
  match body with
  | .array us =>
    if us.isEmpty then ({ status := 400, message := "Updates array is required" }, db)
    else
      match updateQuotePositions writeFails now us db with
      | (db2, false) => ({ status := 200, message := "", quotes := getAllQuotes db2 }, db2)
      | (db2, true) => ({ status := 500, message := "Error updating positions" }, db2)
  | _ => ({ status := 400, message := "Updates array is required" }, db)

/-- Request body of POST /api/quotes, with absent JSON fields as none.
The customerName find-or-create branch of the handler is not part of
this model; the handlers modelled here receive bodies without a
customerName field, as the verified properties only concern the quote
row itself. -/
structure QuotePayload where
  id : Option String := none
  title : Option String := none
  clientName : Option String := none
  customerId : Option String := none
  value : Option Int := none
  stage : Option String := none
  soNumber : Option String := none
  lastChasedAt : Option Int := none
  nextChaseAt : Option Int := none
  reminderEmail : Option String := none
  attachmentUrl : Option String := none
  status : Option String := none
  notes : Option String := none
  createdAt : Option Int := none
  updatedAt : Option Int := none

/-- The JS expression `v || d` on an optional number-valued timestamp:
a missing value and the number 0 both fall back to `d`. -/
def jsOrTime (v : Option Int) (d : Int) : Int :=
  match v with
  | some t => if t = 0 then d else t
  | none => d

/-- Embedding of the createQuote model helper of server.js: every
missing field is replaced by its default; in particular a missing title
becomes Untitled quote and a missing client name becomes Unknown
client (the `??` operator), and id/createdAt/updatedAt use the falsy
`||` fallback. -/
def createQuote (genId : String) (createdBy : Option String) (now : Int)
    (p : QuotePayload) : Quote :=
  { id := jsOrStr p.id genId
    title := p.title.getD "Untitled quote"
    clientName := p.clientName.getD "Unknown client"
    customerId := p.customerId
    createdBy := createdBy
    value := p.value
    stage := p.stage.getD "new"
    position := 0
    soNumber := p.soNumber
    lastChasedAt := p.lastChasedAt
    nextChaseAt := p.nextChaseAt
    reminderEmail := p.reminderEmail
    attachmentUrl := p.attachmentUrl
    status := p.status
    notes := p.notes
    createdAt := jsOrTime p.createdAt now
    updatedAt := jsOrTime p.updatedAt now }

/-- Embedding of the POST /api/quotes handler on its persistence success
path: build the quote from the body, insert it, answer 201 with the
stored row. No field validation is performed by the handler. -/
def postQuotes (genId : String) (userId : Option String) (now : Int)
    (p : QuotePayload) (db : QuoteDB) : ApiResponse × QuoteDB :=
  let quote := createQuote genId userId now p
  let db2 := insertQuote quote db
  ({ status := 201, message := "" }, db2)

/-! ## Auxiliary notions used by the statements -/

/-- Contiguous-substring predicate: `sub` occurs as a factor of `s`. -/
def containsStr (s sub : String) : Prop :=
  ∃ pre post : String, s = pre ++ (sub ++ post)

/-- Cumulative per-row effect of one scheduler tick on a single row: the
marks of the processed due quotes whose send resolved, applied in
order. Used to characterise `reminderTick`. -/
def applyTickMarks (env : ReminderEnv) (due : List Quote) (q : Quote) : Quote :=
  due.foldl (fun r u =>
    if sendSucceeds env u then markQuoteSent u.id (env.sentAtOf u) (env.updatedAtOf u) r else r) q

/-- Modelled from the spec: the static rank of the fixed pipeline order
New, Follow-up, Tender, Won, Lost, over the stage keys of the UI (new,
follow_up, tender, won, lost). Used only to compare the ordering the
spec claims against the ordering of the source query. -/
def specStageRank : String → Nat
  | "new" => 0
  | "follow_up" => 1
  | "tender" => 2
  | "won" => 3
  | "lost" => 4
  | _ => 5

/-! ## Sample data for concrete witnesses -/

/-- Sample row builder used in concrete witnesses and counterexamples. -/
def sampleQuote (id stage : String) (position : Int) : Quote :=
  { id := id, title := "Roof survey", clientName := "Acme", stage := stage, position := position }

/-- Sample due row: reminder email set and next chase in the past. -/
def sampleDueQuote : Quote :=
  { id := "qa", title := "Roof survey", clientName := "Acme", stage := "new", position := 1,
    reminderEmail := some "a@x.com", nextChaseAt := some 10 }

/-- Sample tick environment without SMTP configuration. -/
def sampleEnv : ReminderEnv :=
  { smtpHost := none, smtpFrom := none, transportOk := fun _ => true,
    localeFormat := fun _ => "formatted", sentAtOf := fun _ => 100, updatedAtOf := fun _ => 101 }

/-- Sample due row whose send resolves under sampleSmtpEnv. -/
def sampleOkQuote : Quote :=
  { id := "qp", title := "Boiler swap", clientName := "Bravo", stage := "new", position := 2,
    reminderEmail := some "p@x.com", nextChaseAt := some 5 }

/-- Sample due row whose send fails under sampleSmtpEnv. -/
def sampleFailQuote : Quote :=
  { id := "qb", title := "Fence job", clientName := "Caro", stage := "new", position := 3,
    reminderEmail := some "b@x.com", nextChaseAt := some 6 }

/-- Sample tick environment with SMTP configured, whose transport
delivers only for the row qp. -/
def sampleSmtpEnv : ReminderEnv :=
  { smtpHost := some "smtp.example", smtpFrom := none,
    transportOk := fun r => r.id == "qp",
    localeFormat := fun _ => "fmt", sentAtOf := fun _ => 100, updatedAtOf := fun _ => 101 }

/-! ## Theorems -/

/-- C3: for every create call, the new quote gets position max+1 over its
target stage, or 1 when the stage is empty; in particular inserting into
a stage new that holds positions 1, 2, 3 yields position 4. -/
theorem C3_create_appends_to_stage_end :
    (∀ (q : Quote) (db : QuoteDB), ∃ stored : Quote,
      insertQuote q db = db ++ [stored] ∧
      stored.position =
        (match stageMaxPosition q.stage db with
          | some m => m + 1
          | none => 1)) ∧
    (insertQuote (sampleQuote "q4" "new" 0)
        [sampleQuote "q1" "new" 1, sampleQuote "q2" "new" 2, sampleQuote "q3" "new" 3]).map
      (fun q => q.position) = [1, 2, 3, 4] := by
  constructor
  · intro q db
    refine ⟨_, rfl, ?_⟩
    cases h : stageMaxPosition q.stage db with
    | none => simp [insertQuote, h]
    | some m =>
      by_cases hm : m = 0 <;> simp [insertQuote, h, hm]
  · decide

/-- C10: markReminderSent touches only last_chased_at, next_chase_at and
updated_at of the row with the given id; every other column of every row
(in particular reminder_email, stage and position) is unchanged, and rows
with a different id are fully unchanged. -/
theorem C10_markReminderSent_frame (id : String) (sentAt updatedAt : Int) (db : QuoteDB) :
    markReminderSent id sentAt updatedAt db = db.map (markQuoteSent id sentAt updatedAt) ∧
    (∀ q : Quote,
      (markQuoteSent id sentAt updatedAt q).id = q.id ∧
      (markQuoteSent id sentAt updatedAt q).title = q.title ∧
      (markQuoteSent id sentAt updatedAt q).clientName = q.clientName ∧
      (markQuoteSent id sentAt updatedAt q).customerId = q.customerId ∧
      (markQuoteSent id sentAt updatedAt q).createdBy = q.createdBy ∧
      (markQuoteSent id sentAt updatedAt q).value = q.value ∧
      (markQuoteSent id sentAt updatedAt q).stage = q.stage ∧
      (markQuoteSent id sentAt updatedAt q).position = q.position ∧
      (markQuoteSent id sentAt updatedAt q).soNumber = q.soNumber ∧
      (markQuoteSent id sentAt updatedAt q).reminderEmail = q.reminderEmail ∧
      (markQuoteSent id sentAt updatedAt q).attachmentUrl = q.attachmentUrl ∧
      (markQuoteSent id sentAt updatedAt q).status = q.status ∧
      (markQuoteSent id sentAt updatedAt q).notes = q.notes ∧
      (markQuoteSent id sentAt updatedAt q).createdAt = q.createdAt) ∧
    (∀ q : Quote, q.id ≠ id → markQuoteSent id sentAt updatedAt q = q) := by
  refine ⟨rfl, ?_, ?_⟩
  · intro q
    unfold markQuoteSent applyMarkSent
    split <;> simp
  · intro q h
    unfold markQuoteSent
    simp [h]

/-- C9: a PATCH /api/quotes/positions body whose updates field is absent,
not an array, or empty is answered with 400 Updates array is required and
leaves the table untouched. -/
theorem C9_patch_positions_rejects_invalid_updates
    (writeFails : PositionUpdate → QuoteDB → Bool) (now : Int)
    (body : UpdatesField) (db : QuoteDB) (h : updatesInvalid body = true) :
    patchQuotePositions writeFails now body db
      = ({ status := 400, message := "Updates array is required" }, db) := by
  cases body with
  | absent => rfl
  | nonArray => rfl
  | array us =>
    simp only [updatesInvalid] at h
    simp [patchQuotePositions, h]

/-- Witness for C9 at a concrete invalid body. -/
theorem C9_witness :
    updatesInvalid UpdatesField.absent = true ∧
    patchQuotePositions (fun _ _ => false) 0 UpdatesField.absent [sampleQuote "a" "new" 1]
      = ({ status := 400, message := "Updates array is required" }, [sampleQuote "a" "new" 1]) :=
  ⟨rfl, C9_patch_positions_rejects_invalid_updates (fun _ _ => false) 0 UpdatesField.absent
    [sampleQuote "a" "new" 1] rfl⟩

/-- The transaction body fails exactly when some statement of the list
raises against the transaction-local state reached before it. -/
theorem runPositionUpdates_none_iff (writeFails : PositionUpdate → QuoteDB → Bool) (now : Int) :
    ∀ (updates : List PositionUpdate) (db : QuoteDB),
      runPositionUpdates writeFails now updates db = none ↔
      ∃ pre u post, updates = pre ++ u :: post ∧
        writeFails u (stateAfter now pre db) = true := by
  intro updates
  induction updates with
  | nil =>
    intro db
    simp [runPositionUpdates]
  | cons v rest ih =>
    intro db
    by_cases hf : writeFails v db = true
    · simp only [runPositionUpdates, hf, if_true]
      constructor
      · intro _
        exact ⟨[], v, rest, rfl, hf⟩
      · intro _
        trivial
    · simp only [runPositionUpdates, hf, if_false, Bool.false_eq_true]
      rw [ih (applyPositionUpdate now v db)]
      constructor
      · rintro ⟨pre, u, post, hsplit, hw⟩
        exact ⟨v :: pre, u, post, by simp [hsplit], hw⟩
      · rintro ⟨pre, u, post, hsplit, hw⟩
        cases pre with
        | nil =>
          simp only [List.nil_append, List.cons.injEq] at hsplit
          exact absurd (hsplit.1 ▸ hw) hf
        | cons p pre2 =>
          simp only [List.cons_append, List.cons.injEq] at hsplit
          refine ⟨pre2, u, post, hsplit.2, ?_⟩
          have hp : p = v := hsplit.1.symm
          simpa [stateAfter, hp] using hw

/-- C2: when any one statement of a reorder call fails, the transaction
rolls back: the state visible afterward is exactly the state at BEGIN and
the error propagates to the caller. -/
theorem C2_reorder_rolls_back_atomically (writeFails : PositionUpdate → QuoteDB → Bool)
    (now : Int) (updates : List PositionUpdate) (db : QuoteDB)
    (h : ∃ pre u post, updates = pre ++ u :: post ∧
        writeFails u (stateAfter now pre db) = true) :
    updateQuotePositions writeFails now updates db = (db, true) := by
  unfold updateQuotePositions
  rw [(runPositionUpdates_none_iff writeFails now updates db).mpr h]

/-- Witness for C2: a one-move reorder whose single write fails leaves
the one-row table untouched and reports the error. -/
theorem C2_witness :
    (∃ pre u post, [PositionUpdate.mk "a" 2 "won"] = pre ++ u :: post ∧
        (fun (_ : PositionUpdate) (_ : QuoteDB) => true) u
          (stateAfter 5 pre [sampleQuote "a" "new" 1]) = true) ∧
    updateQuotePositions (fun _ _ => true) 5 [PositionUpdate.mk "a" 2 "won"]
        [sampleQuote "a" "new" 1]
      = ([sampleQuote "a" "new" 1], true) :=
  ⟨⟨[], PositionUpdate.mk "a" 2 "won", [], rfl, rfl⟩,
    C2_reorder_rolls_back_atomically (fun _ _ => true) 5 [PositionUpdate.mk "a" 2 "won"]
      [sampleQuote "a" "new" 1]
      ⟨[], PositionUpdate.mk "a" 2 "won", [], rfl, rfl⟩⟩

/-- C5 counterexample: a create call whose body carries neither a title
nor a client name succeeds with 201 and persists a quote with the default
title Untitled quote and client Unknown client; no ValidationError
occurs and the quote is stored. -/
theorem C5_counterexample :
    (postQuotes "q_1" none 0 { title := none, clientName := none } []).1.status = 201 ∧
    (postQuotes "q_1" none 0 { title := none, clientName := none } []).2.map
      (fun q => q.title) = ["Untitled quote"] ∧
    (postQuotes "q_1" none 0 { title := none, clientName := none } []).2.map
      (fun q => q.clientName) = ["Unknown client"] := by
  refine ⟨rfl, rfl, rfl⟩

/-- C5 amended: a create call whose input is missing the title or the
client name (either one, or both) does not fail: the handler answers
201, one quote is persisted, and each missing field is replaced by its
default (Untitled quote, respectively Unknown client). -/
theorem C5_amended_create_defaults (genId : String) (userId : Option String) (now : Int)
    (p : QuotePayload) (db : QuoteDB)
    (_hmissing : p.title = none ∨ p.clientName = none) :
    (postQuotes genId userId now p db).1.status = 201 ∧
    (postQuotes genId userId now p db).2.length = db.length + 1 ∧
    (p.title = none →
      (postQuotes genId userId now p db).2.map (fun q => q.title)
        = db.map (fun q => q.title) ++ ["Untitled quote"]) ∧
    (p.clientName = none →
      (postQuotes genId userId now p db).2.map (fun q => q.clientName)
        = db.map (fun q => q.clientName) ++ ["Unknown client"]) := by
  refine ⟨rfl, ?_, ?_, ?_⟩
  · simp [postQuotes, insertQuote]
  · intro ht
    simp [postQuotes, insertQuote, createQuote, ht]
  · intro hc
    simp [postQuotes, insertQuote, createQuote, hc]

/-- Witness for C5 amended at a concrete body missing only the title. -/
theorem C5_amended_witness :
    (({ clientName := some "Acme" } : QuotePayload).title = none ∨
      ({ clientName := some "Acme" } : QuotePayload).clientName = none) ∧
    (postQuotes "q_1" none 0 { clientName := some "Acme" } []).1.status = 201 ∧
    (postQuotes "q_1" none 0 { clientName := some "Acme" } []).2.map (fun q => q.title)
      = ["Untitled quote"] := by
  have h := C5_amended_create_defaults "q_1" none 0 { clientName := some "Acme" } []
    (Or.inl rfl)
  exact ⟨Or.inl rfl, h.1, by simpa using h.2.2.1 rfl⟩

/-- C8: a reminder is dispatched exactly for a quote whose reminderEmail
is non-falsy (set and non-empty); every dispatched reminder (real mail
or log-only fallback) uses the subject and body built by
sendReminderEmail; the subject contains the quote title and the client
name, and the body contains the current stage, the rendered value (N/A
when null) and the rendered last-chased timestamp (Never when null). -/
theorem C8_notification_content (env : ReminderEnv) (q : Quote) (addr : String)
    (h : q.reminderEmail = some addr) (hne : addr ≠ "") :
    (sendReminderEmail env q
        = SendAction.mailed (jsOrStr env.smtpFrom addr) addr (reminderSubject q)
            (reminderBody env.localeFormat q) ∨
      sendReminderEmail env q
        = SendAction.logOnly ("[reminderService] Reminder for " ++ addr ++ ": "
            ++ reminderSubject q ++ "\n" ++ reminderBody env.localeFormat q)) ∧
    containsStr (reminderSubject q) q.title ∧
    containsStr (reminderSubject q) q.clientName ∧
    containsStr (reminderBody env.localeFormat q) q.stage ∧
    containsStr (reminderBody env.localeFormat q) (valueText q.value) ∧
    containsStr (reminderBody env.localeFormat q)
      (lastChasedText env.localeFormat q.lastChasedAt) := by
  refine ⟨?_, ?_, ?_, ?_, ?_, ?_⟩
  · unfold sendReminderEmail
    rw [h]
    by_cases hc : transportConfigured env = true
    · left
      simp [hc, hne]
    · right
      simp [hc, hne]
  · exact ⟨"Quote follow-up: ", " for " ++ q.clientName,
      by simp [reminderSubject, String.append_assoc]⟩
  · exact ⟨"Quote follow-up: " ++ q.title ++ " for ", "",
      by simp [reminderSubject, String.append_assoc, String.append_empty]⟩
  · exact ⟨"This is a reminder to chase the quote \"" ++ q.title ++ "\" for client \""
        ++ q.clientName ++ "\".\n\nCurrent stage: ",
      "\nValue: " ++ valueText q.value ++ "\n\nLast chased: "
        ++ lastChasedText env.localeFormat q.lastChasedAt,
      by simp [reminderBody, String.append_assoc]⟩
  · exact ⟨"This is a reminder to chase the quote \"" ++ q.title ++ "\" for client \""
        ++ q.clientName ++ "\".\n\nCurrent stage: " ++ q.stage ++ "\nValue: ",
      "\n\nLast chased: " ++ lastChasedText env.localeFormat q.lastChasedAt,
      by simp [reminderBody, String.append_assoc]⟩
  · exact ⟨"This is a reminder to chase the quote \"" ++ q.title ++ "\" for client \""
        ++ q.clientName ++ "\".\n\nCurrent stage: " ++ q.stage ++ "\nValue: "
        ++ valueText q.value ++ "\n\nLast chased: ",
      "",
      by simp [reminderBody, String.append_assoc, String.append_empty]⟩

/-- Witness for C8 at a concrete due quote with a non-empty reminder
address. -/
theorem C8_witness :
    sampleDueQuote.reminderEmail = some "a@x.com" ∧
    ("a@x.com" : String) ≠ "" ∧
    containsStr (reminderSubject sampleDueQuote) sampleDueQuote.title ∧
    containsStr (reminderBody sampleEnv.localeFormat sampleDueQuote)
      (valueText sampleDueQuote.value) :=
  ⟨rfl, by decide,
    (C8_notification_content sampleEnv sampleDueQuote "a@x.com" rfl (by decide)).2.1,
    (C8_notification_content sampleEnv sampleDueQuote "a@x.com" rfl (by decide)).2.2.2.2.1⟩

/-- The attempt log of a tick fold: one entry per processed due quote,
in order, regardless of send outcome. -/
theorem tickFold_snd (env : ReminderEnv) :
    ∀ (L : List Quote) (db : QuoteDB) (acc : List String),
      (L.foldl (tickStep env) (db, acc)).2 = acc ++ L.map (fun q => q.id) := by
  intro L
  induction L with
  | nil =>
    intro db acc
    simp
  | cons u rest ih =>
    intro db acc
    rw [List.foldl_cons]
    have h1 : tickStep env (db, acc) u
        = ((if sendSucceeds env u then
              markReminderSent u.id (env.sentAtOf u) (env.updatedAtOf u) db
            else db),
           acc ++ [u.id]) := rfl
    rw [h1]
    by_cases hs : sendSucceeds env u = true
    · rw [if_pos hs, ih]
      simp
    · rw [if_neg hs, ih]
      simp

/-- The table component of a tick fold is the pointwise application of
the accumulated marks. -/
theorem tickFold_fst (env : ReminderEnv) :
    ∀ (L : List Quote) (db : QuoteDB) (acc : List String),
      (L.foldl (tickStep env) (db, acc)).1 = db.map (applyTickMarks env L) := by
  intro L
  induction L with
  | nil =>
    intro db acc
    show db = db.map (fun q : Quote => q)
    simp
  | cons u rest ih =>
    intro db acc
    rw [List.foldl_cons]
    have h1 : tickStep env (db, acc) u
        = ((if sendSucceeds env u then
              markReminderSent u.id (env.sentAtOf u) (env.updatedAtOf u) db
            else db),
           acc ++ [u.id]) := rfl
    rw [h1]
    by_cases hs : sendSucceeds env u = true
    · rw [if_pos hs, ih]
      unfold markReminderSent
      rw [List.map_map]
      refine congrArg (fun g => List.map g db) (funext fun q => ?_)
      simp [Function.comp, applyTickMarks, hs]
    · rw [if_neg hs, ih]
      refine congrArg (fun g => List.map g db) (funext fun q => ?_)
      simp [applyTickMarks, hs]

/-- One tick attempts exactly the due quotes, in due order. -/
theorem reminderTick_snd (env : ReminderEnv) (now : Int) (db : QuoteDB) :
    (reminderTick env now db).2 = (getDueReminders now db).map (fun q => q.id) := by
  unfold reminderTick
  rw [tickFold_snd]
  simp

/-- One tick maps every row through the accumulated due-quote marks. -/
theorem reminderTick_fst (env : ReminderEnv) (now : Int) (db : QuoteDB) :
    (reminderTick env now db).1 = db.map (applyTickMarks env (getDueReminders now db)) := by
  unfold reminderTick
  rw [tickFold_fst]

/-- Tick marks never change the id of a row. -/
theorem applyTickMarks_id (env : ReminderEnv) :
    ∀ (L : List Quote) (q : Quote), (applyTickMarks env L q).id = q.id := by
  intro L
  induction L with
  | nil =>
    intro q
    rfl
  | cons u rest ih =>
    intro q
    have hstep : ((if sendSucceeds env u then
        markQuoteSent u.id (env.sentAtOf u) (env.updatedAtOf u) q else q)).id = q.id := by
      split
      · unfold markQuoteSent applyMarkSent
        split <;> rfl
      · rfl
    calc (applyTickMarks env (u :: rest) q).id
        = (applyTickMarks env rest
            (if sendSucceeds env u then
              markQuoteSent u.id (env.sentAtOf u) (env.updatedAtOf u) q else q)).id := rfl
      _ = _ := by rw [ih, hstep]

/-- A row whose id matches no processed due quote is left untouched by
the tick marks. -/
theorem applyTickMarks_not_mem (env : ReminderEnv) :
    ∀ (L : List Quote) (q : Quote), (∀ u ∈ L, u.id ≠ q.id) → applyTickMarks env L q = q := by
  intro L
  induction L with
  | nil =>
    intro q _
    rfl
  | cons u rest ih =>
    intro q h
    have hu : u.id ≠ q.id := h u (List.mem_cons_self u rest)
    have hstep : (if sendSucceeds env u then
        markQuoteSent u.id (env.sentAtOf u) (env.updatedAtOf u) q else q) = q := by
      split
      · unfold markQuoteSent
        rw [if_neg (fun hq => hu hq.symm)]
      · rfl
    calc applyTickMarks env (u :: rest) q
        = applyTickMarks env rest
            (if sendSucceeds env u then
              markQuoteSent u.id (env.sentAtOf u) (env.updatedAtOf u) q else q) := rfl
      _ = applyTickMarks env rest q := by rw [hstep]
      _ = q := ih q (fun v hv => h v (List.mem_cons_of_mem u hv))

/-- When the due list has pairwise distinct ids, the cumulative marks on
a row with the id of due quote u0 reduce to the single mark of u0 (when
its send resolved) or to no change at all (when it failed). -/
theorem applyTickMarks_unique_match (env : ReminderEnv) :
    ∀ (L : List Quote) (q0 u0 : Quote),
      (L.map (fun q => q.id)).Nodup → u0 ∈ L → q0.id = u0.id →
      applyTickMarks env L q0
        = (if sendSucceeds env u0 then
            applyMarkSent (env.sentAtOf u0) (env.updatedAtOf u0) q0 else q0) := by
  intro L
  induction L with
  | nil =>
    intro q0 u0 _ hmem _
    cases hmem
  | cons v rest ih =>
    intro q0 u0 hnodup hmem hid
    rw [List.map_cons, List.nodup_cons] at hnodup
    rcases List.mem_cons.mp hmem with hv | hrest
    · subst hv
      have hstep : (if sendSucceeds env u0 then
          markQuoteSent u0.id (env.sentAtOf u0) (env.updatedAtOf u0) q0 else q0)
          = (if sendSucceeds env u0 then
              applyMarkSent (env.sentAtOf u0) (env.updatedAtOf u0) q0 else q0) := by
        split
        · unfold markQuoteSent
          rw [if_pos hid]
        · rfl
      have hidpres : (if sendSucceeds env u0 then
          applyMarkSent (env.sentAtOf u0) (env.updatedAtOf u0) q0 else q0).id = q0.id := by
        split <;> rfl
      have htail : ∀ u ∈ rest, u.id ≠ (if sendSucceeds env u0 then
          applyMarkSent (env.sentAtOf u0) (env.updatedAtOf u0) q0 else q0).id := by
        intro u hu he
        rw [hidpres, hid] at he
        exact hnodup.1 (he ▸ List.mem_map_of_mem _ hu)
      calc applyTickMarks env (u0 :: rest) q0
          = applyTickMarks env rest
              (if sendSucceeds env u0 then
                markQuoteSent u0.id (env.sentAtOf u0) (env.updatedAtOf u0) q0 else q0) := rfl
        _ = _ := by
            rw [hstep]
            exact applyTickMarks_not_mem env rest _ htail
    · have hvne : v.id ≠ q0.id := by
        intro he
        apply hnodup.1
        rw [he, hid]
        exact List.mem_map_of_mem _ hrest
      have hstep : (if sendSucceeds env v then
          markQuoteSent v.id (env.sentAtOf v) (env.updatedAtOf v) q0 else q0) = q0 := by
        split
        · unfold markQuoteSent
          rw [if_neg (fun hq => hvne hq.symm)]
        · rfl
      calc applyTickMarks env (v :: rest) q0
          = applyTickMarks env rest
              (if sendSucceeds env v then
                markQuoteSent v.id (env.sentAtOf v) (env.updatedAtOf v) q0 else q0) := rfl
        _ = applyTickMarks env rest q0 := by rw [hstep]
        _ = _ := ih q0 u0 hnodup.2 hrest hid

/-- The tick preserves the id column of the table. -/
theorem reminderTick_ids (env : ReminderEnv) (now : Int) (db : QuoteDB) :
    (reminderTick env now db).1.map (fun r => r.id) = db.map (fun r => r.id) := by
  rw [reminderTick_fst, List.map_map]
  exact congrArg (fun g => List.map g db)
    (funext fun r => applyTickMarks_id env (getDueReminders now db) r)

/-- A due quote of a table with pairwise distinct ids is attempted
exactly once per tick. -/
theorem reminderTick_attempts_once (env : ReminderEnv) (now : Int) (db : QuoteDB) (q : Quote)
    (hnodup : (db.map (fun r => r.id)).Nodup)
    (hmem : q ∈ db) (hdue : isDueReminder now q = true) :
    (reminderTick env now db).2.count q.id = 1 := by
  have hq_due : q ∈ getDueReminders now db := List.mem_filter.mpr ⟨hmem, hdue⟩
  have hdue_nodup : ((getDueReminders now db).map (fun r => r.id)).Nodup :=
    hnodup.sublist ((List.filter_sublist db).map _)
  rw [reminderTick_snd]
  exact List.count_eq_one_of_mem hdue_nodup (List.mem_map_of_mem _ hq_due)

/-- After a tick in which the send for due quote q resolved, the row with
the id of q carries lastChasedAt = dispatch time and nextChaseAt = null. -/
theorem reminderTick_marks_sent (env : ReminderEnv) (now : Int) (db : QuoteDB) (q : Quote)
    (hnodup : (db.map (fun r => r.id)).Nodup)
    (hmem : q ∈ db) (hdue : isDueReminder now q = true)
    (hok : sendSucceeds env q = true) :
    ∀ r ∈ (reminderTick env now db).1, r.id = q.id →
      r.lastChasedAt = some (env.sentAtOf q) ∧ r.nextChaseAt = none := by
  have hq_due : q ∈ getDueReminders now db := List.mem_filter.mpr ⟨hmem, hdue⟩
  have hdue_nodup : ((getDueReminders now db).map (fun r => r.id)).Nodup :=
    hnodup.sublist ((List.filter_sublist db).map _)
  intro r hr hid
  rw [reminderTick_fst] at hr
  rcases List.mem_map.mp hr with ⟨r0, hr0db, hr0⟩
  have hr0id : r0.id = q.id := by
    rw [← applyTickMarks_id env (getDueReminders now db) r0, hr0, hid]
  rw [← hr0, applyTickMarks_unique_match env _ r0 q hdue_nodup hq_due hr0id, if_pos hok]
  exact ⟨rfl, rfl⟩

/-- After a tick in which the send for due quote q failed, the row with
the id of q is exactly the old row: in particular nextChaseAt is
unchanged. -/
theorem reminderTick_keeps_failed (env : ReminderEnv) (now : Int) (db : QuoteDB) (q : Quote)
    (hnodup : (db.map (fun r => r.id)).Nodup)
    (hmem : q ∈ db) (hdue : isDueReminder now q = true)
    (hfail : sendSucceeds env q = false) :
    ∀ r ∈ (reminderTick env now db).1, r.id = q.id → r = q := by
  have hq_due : q ∈ getDueReminders now db := List.mem_filter.mpr ⟨hmem, hdue⟩
  have hdue_nodup : ((getDueReminders now db).map (fun r => r.id)).Nodup :=
    hnodup.sublist ((List.filter_sublist db).map _)
  intro r hr hid
  rw [reminderTick_fst] at hr
  rcases List.mem_map.mp hr with ⟨r0, hr0db, hr0⟩
  have hr0id : r0.id = q.id := by
    rw [← applyTickMarks_id env (getDueReminders now db) r0, hr0, hid]
  have hr0q : r0 = q :=
    List.inj_on_of_nodup_map hnodup hr0db hmem hr0id
  rw [← hr0, hr0q,
    applyTickMarks_unique_match env _ q q hdue_nodup hq_due rfl, if_neg]
  rw [hfail]
  exact Bool.false_ne_true

/-- C1: a quote with reminderEmail set and nextChaseAt elapsed receives
exactly one send attempt in one tick; on a successful send the row gets
lastChasedAt = dispatch time and nextChaseAt = null, and a second tick
run before nextChaseAt is set again performs zero further attempts for
that quote. -/
theorem C1_reminder_at_most_once (env env2 : ReminderEnv) (now now2 : Int)
    (db : QuoteDB) (q : Quote)
    (hnodup : (db.map (fun r => r.id)).Nodup)
    (hmem : q ∈ db) (hdue : isDueReminder now q = true)
    (hok : sendSucceeds env q = true) :
    ((reminderTick env now db).2.count q.id = 1) ∧
    (∀ r ∈ (reminderTick env now db).1, r.id = q.id →
        r.lastChasedAt = some (env.sentAtOf q) ∧ r.nextChaseAt = none) ∧
    ((reminderTick env2 now2 (reminderTick env now db).1).2.count q.id = 0) := by
  have hmarks := reminderTick_marks_sent env now db q hnodup hmem hdue hok
  refine ⟨reminderTick_attempts_once env now db q hnodup hmem hdue, hmarks, ?_⟩
  rw [reminderTick_snd, List.count_eq_zero]
  intro hin
  rcases List.mem_map.mp hin with ⟨r, hrdue, hrid⟩
  have hrdb : r ∈ (reminderTick env now db).1 := List.mem_of_mem_filter hrdue
  have hrdue2 : isDueReminder now2 r = true := (List.mem_filter.mp hrdue).2
  have hnone := (hmarks r hrdb hrid).2
  unfold isDueReminder at hrdue2
  rw [hnone] at hrdue2
  simp at hrdue2

/-- Witness for C1 on a one-row table with a due reminder and a
resolving send. -/
theorem C1_witness :
    (([sampleDueQuote] : QuoteDB).map (fun r => r.id)).Nodup ∧
    sampleDueQuote ∈ ([sampleDueQuote] : QuoteDB) ∧
    isDueReminder 10 sampleDueQuote = true ∧
    sendSucceeds sampleEnv sampleDueQuote = true ∧
    ((reminderTick sampleEnv 10 [sampleDueQuote]).2.count sampleDueQuote.id = 1) ∧
    ((reminderTick sampleEnv 10
        (reminderTick sampleEnv 10 [sampleDueQuote]).1).2.count sampleDueQuote.id = 0) := by
  refine ⟨by decide, by decide, by decide, by decide, ?_, ?_⟩
  · exact (C1_reminder_at_most_once sampleEnv sampleEnv 10 10 [sampleDueQuote] sampleDueQuote
      (by decide) (by decide) (by decide) (by decide)).1
  · exact (C1_reminder_at_most_once sampleEnv sampleEnv 10 10 [sampleDueQuote] sampleDueQuote
      (by decide) (by decide) (by decide) (by decide)).2.2

/-- C6: when the send for one due quote fails, its row (in particular
nextChaseAt) is left fully unchanged and the quote is re-attempted by
the next tick; the failure does not prevent another due quote of the
same tick from being attempted and, on success, marked sent. -/
theorem C6_send_failure_isolated (env env2 : ReminderEnv) (now now2 : Int)
    (db : QuoteDB) (q p : Quote)
    (hnodup : (db.map (fun r => r.id)).Nodup)
    (hqmem : q ∈ db) (hqdue : isDueReminder now q = true)
    (hqfail : sendSucceeds env q = false)
    (hpmem : p ∈ db) (hpdue : isDueReminder now p = true)
    (hpok : sendSucceeds env p = true)
    (hlater : now ≤ now2) :
    (∀ r ∈ (reminderTick env now db).1, r.id = q.id → r = q) ∧
    ((reminderTick env now db).2.count q.id = 1) ∧
    ((reminderTick env now db).2.count p.id = 1) ∧
    (∀ r ∈ (reminderTick env now db).1, r.id = p.id →
        r.lastChasedAt = some (env.sentAtOf p) ∧ r.nextChaseAt = none) ∧
    ((reminderTick env2 now2 (reminderTick env now db).1).2.count q.id = 1) := by
  have hkeep := reminderTick_keeps_failed env now db q hnodup hqmem hqdue hqfail
  refine ⟨hkeep, reminderTick_attempts_once env now db q hnodup hqmem hqdue,
    reminderTick_attempts_once env now db p hnodup hpmem hpdue,
    reminderTick_marks_sent env now db p hnodup hpmem hpdue hpok, ?_⟩
  have hnodup2 : ((reminderTick env now db).1.map (fun r => r.id)).Nodup := by
    rw [reminderTick_ids]
    exact hnodup
  have hqmem2 : q ∈ (reminderTick env now db).1 := by
    have himg : applyTickMarks env (getDueReminders now db) q ∈ (reminderTick env now db).1 := by
      rw [reminderTick_fst]
      exact List.mem_map_of_mem _ hqmem
    have hidq : (applyTickMarks env (getDueReminders now db) q).id = q.id :=
      applyTickMarks_id env _ q
    have heq := hkeep _ himg hidq
    rwa [heq] at himg
  have hqdue2 : isDueReminder now2 q = true := by
    unfold isDueReminder at hqdue ⊢
    cases hnc : q.nextChaseAt with
    | none =>
      rw [hnc] at hqdue
      simp at hqdue
    | some t =>
      rw [hnc] at hqdue
      simp only [Bool.and_eq_true, decide_eq_true_eq] at hqdue ⊢
      exact ⟨hqdue.1, by omega⟩
  exact reminderTick_attempts_once env2 now2 _ q hnodup2 hqmem2 hqdue2

/-- Witness for C6 on a two-row table where the send for qb fails and
the send for qp resolves. -/
theorem C6_witness :
    (([sampleFailQuote, sampleOkQuote] : QuoteDB).map (fun r => r.id)).Nodup ∧
    isDueReminder 10 sampleFailQuote = true ∧
    sendSucceeds sampleSmtpEnv sampleFailQuote = false ∧
    isDueReminder 10 sampleOkQuote = true ∧
    sendSucceeds sampleSmtpEnv sampleOkQuote = true ∧
    ((reminderTick sampleSmtpEnv 10 [sampleFailQuote, sampleOkQuote]).2.count "qb" = 1) ∧
    ((reminderTick sampleSmtpEnv 10 [sampleFailQuote, sampleOkQuote]).2.count "qp" = 1) ∧
    ((reminderTick sampleSmtpEnv 11
        (reminderTick sampleSmtpEnv 10 [sampleFailQuote, sampleOkQuote]).1).2.count "qb" = 1) := by
  have h := C6_send_failure_isolated sampleSmtpEnv sampleSmtpEnv 10 11
    [sampleFailQuote, sampleOkQuote] sampleFailQuote sampleOkQuote
    (by decide) (by decide) (by decide) (by decide) (by decide) (by decide) (by decide)
    (by omega)
  exact ⟨by decide, by decide, by decide, by decide, by decide, h.2.1, h.2.2.1, h.2.2.2.2⟩

/-- C7: without SMTP configuration, a tick that processes a due quote
never sends a real mail and raises no error, and still clears the due
state exactly as a successful send would; whenever the reminder address
is non-falsy (set and non-empty, the condition under which the engine
dispatches at all), the would-be message is logged instead. -/
theorem C7_no_transport_logs_and_clears (env : ReminderEnv) (now : Int) (db : QuoteDB)
    (q : Quote)
    (hsmtp : env.smtpHost = none)
    (hnodup : (db.map (fun r => r.id)).Nodup)
    (hmem : q ∈ db) (hdue : isDueReminder now q = true) :
    (∀ addr, q.reminderEmail = some addr → addr ≠ "" →
      ∃ line, sendReminderEmail env q = SendAction.logOnly line) ∧
    (∀ fromAddr toAddr subject body,
      sendReminderEmail env q ≠ SendAction.mailed fromAddr toAddr subject body) ∧
    sendSucceeds env q = true ∧
    (∀ r ∈ (reminderTick env now db).1, r.id = q.id →
        r.lastChasedAt = some (env.sentAtOf q) ∧ r.nextChaseAt = none) := by
  have hnt : transportConfigured env = false := by
    unfold transportConfigured
    rw [hsmtp]
    rfl
  obtain ⟨addr, haddr⟩ : ∃ addr, q.reminderEmail = some addr := by
    unfold isDueReminder at hdue
    cases he : q.reminderEmail with
    | none =>
      rw [he] at hdue
      simp at hdue
    | some a => exact ⟨a, rfl⟩
  have hok : sendSucceeds env q = true := by
    unfold sendSucceeds
    rw [haddr]
    simp [hnt]
  refine ⟨?_, ?_, hok, reminderTick_marks_sent env now db q hnodup hmem hdue hok⟩
  · intro addr2 haddr2 hne2
    refine ⟨"[reminderService] Reminder for " ++ addr2 ++ ": "
      ++ reminderSubject q ++ "\n" ++ reminderBody env.localeFormat q, ?_⟩
    unfold sendReminderEmail
    rw [haddr2]
    simp [hnt, hne2]
  · intro fromAddr toAddr subject body hcontra
    unfold sendReminderEmail at hcontra
    rw [haddr] at hcontra
    by_cases he : addr = "" <;> simp [he, hnt] at hcontra

/-- Witness for C7 on a one-row table under the transportless sample
environment. -/
theorem C7_witness :
    sampleEnv.smtpHost = none ∧
    isDueReminder 10 sampleDueQuote = true ∧
    sampleDueQuote.reminderEmail = some "a@x.com" ∧
    (∃ line, sendReminderEmail sampleEnv sampleDueQuote = SendAction.logOnly line) ∧
    sendSucceeds sampleEnv sampleDueQuote = true := by
  have h := C7_no_transport_logs_and_clears sampleEnv 10 [sampleDueQuote] sampleDueQuote
    rfl (by decide) (by decide) (by decide)
  exact ⟨rfl, by decide, rfl, h.1 "a@x.com" rfl (by decide), h.2.2.1⟩

/-- Transitivity of one lexicographic comparison step: the key
comparator is transitive, irreflexive, and mutual falsity forces key
equality; the tie-break is transitive. -/
theorem lexStep_trans {α κ : Type} (lt : κ → κ → Bool) (f : α → κ) (rest : α → α → Bool)
    (hlt_trans : ∀ x y z, lt x y = true → lt y z = true → lt x z = true)
    (hlt_eq : ∀ x y, lt x y = false → lt y x = false → x = y)
    (hlt_irrefl : ∀ x, lt x x = false)
    (hrest_trans : ∀ a b c, rest a b = true → rest b c = true → rest a c = true) :
    ∀ a b c : α,
      (if lt (f a) (f b) then true else if lt (f b) (f a) then false else rest a b) = true →
      (if lt (f b) (f c) then true else if lt (f c) (f b) then false else rest b c) = true →
      (if lt (f a) (f c) then true else if lt (f c) (f a) then false else rest a c) = true := by
  intro a b c hab hbc
  by_cases h1 : lt (f a) (f b) = true
  · by_cases h2 : lt (f b) (f c) = true
    · have h3 := hlt_trans _ _ _ h1 h2
      simp [h3]
    · by_cases h4 : lt (f c) (f b) = true
      · rw [if_neg (by simp [h2]), if_pos (by simp [h4])] at hbc
        exact absurd hbc (by simp)
      · have heq : f b = f c := hlt_eq _ _ (by simpa using h2) (by simpa using h4)
        rw [heq] at h1
        simp [h1]
  · by_cases h1b : lt (f b) (f a) = true
    · rw [if_neg (by simp [h1]), if_pos (by simp [h1b])] at hab
      exact absurd hab (by simp)
    · have heqab : f a = f b := hlt_eq _ _ (by simpa using h1) (by simpa using h1b)
      rw [if_neg (by simp [h1]), if_neg (by simp [h1b])] at hab
      by_cases h2 : lt (f b) (f c) = true
      · rw [← heqab] at h2
        simp [h2]
      · by_cases h4 : lt (f c) (f b) = true
        · rw [if_neg (by simp [h2]), if_pos (by simp [h4])] at hbc
          exact absurd hbc (by simp)
        · have heqbc : f b = f c := hlt_eq _ _ (by simpa using h2) (by simpa using h4)
          rw [if_neg (by simp [h2]), if_neg (by simp [h4])] at hbc
          have heac : f a = f c := heqab.trans heqbc
          rw [heac]
          simp [hlt_irrefl (f c)]
          exact hrest_trans _ _ _ hab hbc

/-- Totality of one lexicographic comparison step, given a total
tie-break. -/
theorem lexStep_total {α κ : Type} (lt : κ → κ → Bool) (f : α → κ) (rest : α → α → Bool)
    (hrest_total : ∀ a b, rest a b = true ∨ rest b a = true) :
    ∀ a b : α,
      (if lt (f a) (f b) then true else if lt (f b) (f a) then false else rest a b) = true ∨
      (if lt (f b) (f a) then true else if lt (f a) (f b) then false else rest b a) = true := by
  intro a b
  by_cases h1 : lt (f a) (f b) = true
  · left
    simp [h1]
  · by_cases h2 : lt (f b) (f a) = true
    · right
      simp [h2]
    · rcases hrest_total a b with h | h
      · left
        simp [h1, h2, h]
      · right
        simp [h1, h2, h]

/-- Transitivity of codepoint lexicographic comparison. -/
theorem charListLt_trans :
    ∀ (a b c : List Char), charListLt a b = true → charListLt b c = true →
      charListLt a c = true := by
  intro a
  induction a with
  | nil =>
    intro b c hab hbc
    cases b with
    | nil => simp [charListLt] at hab
    | cons y ys =>
      cases c with
      | nil => simp [charListLt] at hbc
      | cons z zs => simp [charListLt]
  | cons x xs ih =>
    intro b c hab hbc
    cases b with
    | nil => simp [charListLt] at hab
    | cons y ys =>
      cases c with
      | nil => simp [charListLt] at hbc
      | cons z zs =>
        simp only [charListLt] at hab hbc ⊢
        by_cases h1 : x.toNat < y.toNat
        · by_cases h2 : y.toNat < z.toNat
          · have : x.toNat < z.toNat := by omega
            simp [this]
          · by_cases h3 : z.toNat < y.toNat
            · simp [h2, h3] at hbc
            · have hyz : y.toNat = z.toNat := by omega
              have : x.toNat < z.toNat := by omega
              simp [this]
        · by_cases h1b : y.toNat < x.toNat
          · simp [h1, h1b] at hab
          · have hxy : x.toNat = y.toNat := by omega
            simp only [h1, h1b, if_false, if_neg (by omega : ¬ x.toNat < y.toNat)] at hab
            by_cases h2 : y.toNat < z.toNat
            · have : x.toNat < z.toNat := by omega
              simp [this]
            · by_cases h3 : z.toNat < y.toNat
              · simp [h2, h3] at hbc
              · have hyz : y.toNat = z.toNat := by omega
                simp only [h2, h3, if_false, if_neg (by omega : ¬ y.toNat < z.toNat)] at hbc
                have hn1 : ¬ x.toNat < z.toNat := by omega
                have hn2 : ¬ z.toNat < x.toNat := by omega
                simp only [hn1, hn2, if_false]
                exact ih ys zs (by simpa [h1, h1b] using hab) (by simpa [h2, h3] using hbc)

/-- Mutual falsity of codepoint comparison forces equality. -/
theorem charListLt_antisymm :
    ∀ (a b : List Char), charListLt a b = false → charListLt b a = false → a = b := by
  intro a
  induction a with
  | nil =>
    intro b hab _
    cases b with
    | nil => rfl
    | cons y ys => simp [charListLt] at hab
  | cons x xs ih =>
    intro b hab hba
    cases b with
    | nil => simp [charListLt] at hba
    | cons y ys =>
      simp only [charListLt] at hab hba
      by_cases h1 : x.toNat < y.toNat
      · simp [h1] at hab
      · by_cases h2 : y.toNat < x.toNat
        · simp [h2] at hba
        · have hxy : x = y := by
            have : x.toNat = y.toNat := by omega
            exact Char.ext (UInt32.ext this)
          have hxs : xs = ys :=
            ih ys (by simpa [h1, h2] using hab) (by simpa [h1, h2] using hba)
          rw [hxy, hxs]

/-- Codepoint comparison is irreflexive. -/
theorem charListLt_irrefl : ∀ (a : List Char), charListLt a a = false := by
  intro a
  induction a with
  | nil => rfl
  | cons x xs ih => simpa [charListLt] using ih

/-- Text comparison is transitive. -/
theorem strLt_trans (a b c : String) (hab : strLt a b = true) (hbc : strLt b c = true) :
    strLt a c = true :=
  charListLt_trans a.data b.data c.data hab hbc

/-- Mutual falsity of text comparison forces string equality. -/
theorem strLt_antisymm (a b : String) (hab : strLt a b = false) (hba : strLt b a = false) :
    a = b := by
  have hdata : a.data = b.data := charListLt_antisymm a.data b.data hab hba
  have : String.mk a.data = String.mk b.data := congrArg String.mk hdata
  exact this

/-- Text comparison is irreflexive. -/
theorem strLt_irrefl (a : String) : strLt a a = false := charListLt_irrefl a.data

/-- The nulls-last key comparison is transitive. -/
theorem chaseBefore_trans (x y z : Option Int) (hxy : chaseBefore x y = true)
    (hyz : chaseBefore y z = true) : chaseBefore x z = true := by
  cases x with
  | none => simp [chaseBefore] at hxy
  | some a =>
    cases y with
    | none => simp [chaseBefore] at hyz
    | some b =>
      cases z with
      | none => rfl
      | some c =>
        simp only [chaseBefore, decide_eq_true_eq] at hxy hyz ⊢
        omega

/-- Mutual falsity of the nulls-last key comparison forces equality. -/
theorem chaseBefore_antisymm (x y : Option Int) (hxy : chaseBefore x y = false)
    (hyx : chaseBefore y x = false) : x = y := by
  cases x with
  | none =>
    cases y with
    | none => rfl
    | some b => simp [chaseBefore] at hyx
  | some a =>
    cases y with
    | none => simp [chaseBefore] at hxy
    | some b =>
      simp only [chaseBefore, decide_eq_false_iff_not] at hxy hyx
      have : a = b := by omega
      rw [this]

/-- The nulls-last key comparison is irreflexive. -/
theorem chaseBefore_irrefl (x : Option Int) : chaseBefore x x = false := by
  cases x with
  | none => rfl
  | some a => simp [chaseBefore]

/-- Boolean strict order on Int is transitive. -/
theorem intLtb_trans (x y z : Int) (hxy : decide (x < y) = true)
    (hyz : decide (y < z) = true) : decide (x < z) = true := by
  simp only [decide_eq_true_eq] at hxy hyz ⊢
  omega

/-- Mutual falsity of the boolean strict order on Int forces equality. -/
theorem intLtb_antisymm (x y : Int) (hxy : decide (x < y) = false)
    (hyx : decide (y < x) = false) : x = y := by
  simp only [decide_eq_false_iff_not] at hxy hyx
  omega

/-- Boolean strict order on Int is irreflexive. -/
theorem intLtb_irrefl (x : Int) : decide (x < x) = false := by
  simp

/-- The chase/createdAt tail comparator is transitive. -/
theorem quoteLeChase_trans (a b c : Quote) (hab : quoteLeChase a b = true)
    (hbc : quoteLeChase b c = true) : quoteLeChase a c = true := by
  unfold quoteLeChase at hab hbc ⊢
  refine lexStep_trans chaseBefore (fun q : Quote => q.nextChaseAt)
    (fun a b : Quote => decide (b.createdAt ≤ a.createdAt))
    chaseBefore_trans chaseBefore_antisymm chaseBefore_irrefl ?_ a b c hab hbc
  intro a b c hab2 hbc2
  simp only [decide_eq_true_eq] at hab2 hbc2 ⊢
  omega

/-- The chase/createdAt tail comparator is total. -/
theorem quoteLeChase_total (a b : Quote) :
    quoteLeChase a b = true ∨ quoteLeChase b a = true := by
  unfold quoteLeChase
  refine lexStep_total chaseBefore (fun q : Quote => q.nextChaseAt)
    (fun a b : Quote => decide (b.createdAt ≤ a.createdAt)) ?_ a b
  intro a b
  simp only [decide_eq_true_eq]
  omega

/-- The position tail comparator is transitive. -/
theorem quoteLePos_trans (a b c : Quote) (hab : quoteLePos a b = true)
    (hbc : quoteLePos b c = true) : quoteLePos a c = true := by
  unfold quoteLePos at hab hbc ⊢
  exact lexStep_trans (fun x y : Int => decide (x < y)) (fun q : Quote => q.position)
    quoteLeChase intLtb_trans intLtb_antisymm intLtb_irrefl quoteLeChase_trans a b c hab hbc

/-- The position tail comparator is total. -/
theorem quoteLePos_total (a b : Quote) : quoteLePos a b = true ∨ quoteLePos b a = true := by
  unfold quoteLePos
  exact lexStep_total (fun x y : Int => decide (x < y)) (fun q : Quote => q.position)
    quoteLeChase quoteLeChase_total a b

/-- The full order-by comparator is transitive. -/
theorem quoteLe_trans (a b c : Quote) (hab : quoteLe a b = true)
    (hbc : quoteLe b c = true) : quoteLe a c = true := by
  unfold quoteLe at hab hbc ⊢
  exact lexStep_trans strLt (fun q : Quote => q.stage) quoteLePos
    strLt_trans strLt_antisymm strLt_irrefl quoteLePos_trans a b c hab hbc

/-- The full order-by comparator is total. -/
theorem quoteLe_total (a b : Quote) : quoteLe a b = true ∨ quoteLe b a = true := by
  unfold quoteLe
  exact lexStep_total strLt (fun q : Quote => q.stage) quoteLePos quoteLePos_total a b

/-- Inserting into a list yields a permutation of the cons. -/
theorem insertSorted_perm (le : Quote → Quote → Bool) (x : Quote) :
    ∀ l : QuoteDB, (insertSorted le x l).Perm (x :: l) := by
  intro l
  induction l with
  | nil => exact List.Perm.refl _
  | cons y ys ih =>
    unfold insertSorted
    split
    · exact List.Perm.refl _
    · exact (List.Perm.cons y ih).trans (List.Perm.swap x y ys)

/-- The sort returns a permutation of its input. -/
theorem sortQuotes_perm (le : Quote → Quote → Bool) :
    ∀ l : QuoteDB, (sortQuotes le l).Perm l := by
  intro l
  induction l with
  | nil => exact List.Perm.refl _
  | cons x xs ih =>
    unfold sortQuotes
    exact (insertSorted_perm le x (sortQuotes le xs)).trans (List.Perm.cons x ih)

/-- Inserting into a sorted list keeps it sorted, for a total and
transitive comparator. -/
theorem insertSorted_pairwise (le : Quote → Quote → Bool)
    (htotal : ∀ a b, le a b = true ∨ le b a = true)
    (htrans : ∀ a b c, le a b = true → le b c = true → le a c = true)
    (x : Quote) :
    ∀ l : QuoteDB, l.Pairwise (fun a b => le a b = true) →
      (insertSorted le x l).Pairwise (fun a b => le a b = true) := by
  intro l
  induction l with
  | nil =>
    intro _
    exact List.pairwise_singleton _ x
  | cons y ys ih =>
    intro hp
    obtain ⟨hy_all, hys⟩ := List.pairwise_cons.mp hp
    unfold insertSorted
    split
    · rename_i hxy
      refine List.Pairwise.cons ?_ hp
      intro z hz
      rcases List.mem_cons.mp hz with rfl | hz2
      · exact hxy
      · exact htrans x y z hxy (hy_all z hz2)
    · rename_i hxy
      have hyx : le y x = true := (htotal x y).resolve_left hxy
      refine List.Pairwise.cons ?_ (ih hys)
      intro z hz
      have hz2 : z ∈ x :: ys := (insertSorted_perm le x ys).mem_iff.mp hz
      rcases List.mem_cons.mp hz2 with rfl | hz3
      · exact hyx
      · exact hy_all z hz3

/-- The sort produces a pairwise-ordered list, for a total and
transitive comparator. -/
theorem sortQuotes_pairwise (le : Quote → Quote → Bool)
    (htotal : ∀ a b, le a b = true ∨ le b a = true)
    (htrans : ∀ a b c, le a b = true → le b c = true → le a c = true) :
    ∀ l : QuoteDB, (sortQuotes le l).Pairwise (fun a b => le a b = true) := by
  intro l
  induction l with
  | nil => exact List.Pairwise.nil
  | cons x xs ih =>
    unfold sortQuotes
    exact insertSorted_pairwise le htotal htrans x (sortQuotes le xs) ih

/-- C4 counterexample: with one quote in stage new and one in stage
follow_up (equal positions), the source query lists follow_up first,
because its first key is the stage text in lexicographic order; the
fixed pipeline order of the claim ranks new before follow_up, so the
output is not ordered by the claimed static rank. -/
theorem C4_counterexample :
    (getAllQuotes [sampleQuote "a" "new" 1, sampleQuote "b" "follow_up" 1]).map
      (fun q => q.stage) = ["follow_up", "new"] ∧
    specStageRank "new" < specStageRank "follow_up" ∧
    ¬ ((getAllQuotes [sampleQuote "a" "new" 1, sampleQuote "b" "follow_up" 1]).map
        (fun q => specStageRank q.stage)).Pairwise (fun x y => x ≤ y) := by
  refine ⟨by decide, by decide, by decide⟩

/-- C4 amended: getAllQuotes returns all quotes (a permutation of the
table) ordered by the composite key of the source query: stage name
ascending in text order, then position ascending, then nextChaseAt
ascending with nulls last, then createdAt descending. -/
theorem C4_listing_sorted (db : QuoteDB) :
    (getAllQuotes db).Perm db ∧
    (getAllQuotes db).Pairwise (fun a b => quoteLe a b = true) := by
  constructor
  · exact sortQuotes_perm quoteLe db
  · exact sortQuotes_pairwise quoteLe quoteLe_total quoteLe_trans db
